import Mathlib

/-!
Verification of the Creative-Platform feature pipeline.

This file gives a shallow embedding, in Lean 4, of the core feature
engineering / validation / preprocessing pipeline of the repository:

* `computeMetrics` — the windowed metrics aggregator of
  `src/data_collector_2/server/server.js` (SQL queries over the
  `raw_events` table are embedded as list filters over an in-memory
  event list; SQLite `BETWEEN` is inclusive on both bounds, and this is
  embedded faithfully as `a ≤ ts ∧ ts ≤ b`).
* `validateData`, `preprocessData`, `fitTransform`, `transformDP` — the
  `DataProcessor` class of `src/machine_learning/DataProcessor`
  (pandas DataFrames are embedded as a column list plus a list of rows,
  a row being a function from column name to `Cell`).
* `predictDataframe` — `predict_dataframe` of
  `src/Machine_Learning/predict_pipeline` (classifier and artifact
  loading are external to the repository sources; the classifier is an
  abstract per-row probability function, and the threshold loader is
  modelled from the spec: stored value, default 0.5 when absent).

JavaScript / Python floating point numbers are embedded as `ℚ`; the
rounding helpers (`Math.round`, `toFixed(2)`, pandas `round`) are
embedded exactly as integer-floor computations on rationals.
-/

attribute [local semireducible] Rat.mul Rat.inv Rat.add Rat.sub Rat.ofScientific

namespace CreativePlatform

/-- Insertion of an element into a descending-sorted list, auxiliary to
`sortDesc`. -/
def insDesc (x : ℤ) : List ℤ → List ℤ
  | [] => [x]
  | y :: ys => if y ≤ x then x :: y :: ys else y :: insDesc x ys

/-- Sorting a list of integers in descending order (the embedding of SQL
`ORDER BY ms DESC`). -/
def sortDesc : List ℤ → List ℤ
  | [] => []
  | x :: xs => insDesc x (sortDesc xs)

/-- ASCII lower-casing of one character (SQLite `LIKE` folds ASCII case). -/
def lowerChar (c : Char) : Char :=
  if 65 ≤ c.toNat ∧ c.toNat ≤ 90 then Char.ofNat (c.toNat + 32) else c

/-- Decides whether the first character list is an initial segment of the
second. -/
def isInit : List Char → List Char → Bool
  | [], _ => true
  | _ :: _, [] => false
  | p :: ps, c :: cs => p == c && isInit ps cs

/-- JavaScript `Math.round`: round half toward positive infinity,
`Math.round x = ⌊x + 1/2⌋`. -/
def jsRound (q : ℚ) : ℤ := ⌊q + 1/2⌋

/-- `toMin` from `server.js`: `Math.round((ms / 60000) * 100) / 100` —
milliseconds to minutes, rounded to 2 decimal places. -/
def toMin (ms : ℚ) : ℚ := (jsRound (ms / 60000 * 100) : ℚ) / 100

/-- JavaScript `Number(x.toFixed(2))` for the non-negative averages it is
applied to: round to 2 decimal places, ties away from zero (= up). -/
def toFixed2 (q : ℚ) : ℚ := (jsRound (q * 100) : ℚ) / 100

/-- `safeRatio` from `server.js`: `den > 0 ? num / den : 0`. -/
def safeRatio (num den : ℤ) : ℚ := if 0 < den then (num : ℚ) / (den : ℚ) else 0

/-- One row of the `raw_events` SQLite table (see the `CREATE TABLE` in
`server.js`).  Nullable SQL columns are `Option`s. -/
structure RawEvent where
  ts : ℤ
  type : String
  url : Option String := none
  host : Option String := none
  category : Option String := none
  tabId : Option ℤ := none
  dwell_ms : Option ℤ := none
  speed_px_per_s : Option ℚ := none
  count : Option ℤ := none
deriving DecidableEq

/-- The FeatureRow produced by `computeMetrics` (the JSON object returned
by `server.js`). -/
structure FeatureRow where
  total_usage : ℚ
  late_night_ratio : ℚ
  sns_ent_ratio : ℚ
  session_length_max : ℚ
  session_length_mean : ℚ
  bounce_ratio : ℚ
  avg_tab_cnt : ℚ
  search_freq : ℚ
  repeat_site_ratio : ℚ
deriving DecidableEq

/-- SQL `ts BETWEEN @a AND @b` — inclusive on both ends. -/
def inRangeB (a b : ℤ) (e : RawEvent) : Bool :=
  decide (a ≤ e.ts) && decide (e.ts ≤ b)

/-- Events matched by `WHERE type='dwell' AND ts BETWEEN @a AND @b`. -/
def dwellEvents (es : List RawEvent) (a b : ℤ) : List RawEvent :=
  es.filter fun e => e.type == "dwell" && inRangeB a b e

/-- Events of the late-night query: dwell events whose local hour
(`strftime('%H', ..., 'localtime')`) is between "00" and "05".  The
local-time hour function is a parameter of the embedding. -/
def lateEvents (hr : ℤ → ℕ) (es : List RawEvent) (a b : ℤ) : List RawEvent :=
  es.filter fun e => e.type == "dwell" && inRangeB a b e && decide (hr e.ts ≤ 5)

/-- Events of the SNS/entertainment query:
`category IN ('sns', 'entertainment')`. -/
def snsEntEvents (es : List RawEvent) (a b : ℤ) : List RawEvent :=
  es.filter fun e => e.type == "dwell" && inRangeB a b e &&
    (e.category == some "sns" || e.category == some "entertainment")

/-- The `sessions` list: `SELECT dwell_ms ... WHERE type='dwell' AND
ts BETWEEN @a AND @b AND dwell_ms IS NOT NULL`. -/
def sessionList (es : List RawEvent) (a b : ℤ) : List ℤ :=
  (es.filter fun e => e.type == "dwell" && inRangeB a b e && e.dwell_ms.isSome).filterMap
    (·.dwell_ms)

/-- Events of the tab-count query: `WHERE type='tab_count' AND ts BETWEEN`. -/
def tabEvents (es : List RawEvent) (a b : ℤ) : List RawEvent :=
  es.filter fun e => e.type == "tab_count" && inRangeB a b e

/-- SQLite `category = 'search' OR category LIKE 'search_%'`.  `=` is
case-sensitive; `LIKE` is ASCII case-insensitive and `_` is a single
character wildcard, so `'search_%'` matches any category whose lower
casing starts with `search` and that has at least 7 characters. -/
def searchCat (c : Option String) : Bool :=
  match c with
  | none => false
  | some s =>
    s == "search" ||
      (isInit "search".toList (s.toList.map lowerChar) && decide (6 < s.toList.length))

/-- Events of the search-frequency query: `WHERE type='visit' AND ts
BETWEEN @a AND @b AND (category = 'search' OR category LIKE 'search_%')`. -/
def searchVisitEvents (es : List RawEvent) (a b : ℤ) : List RawEvent :=
  es.filter fun e => e.type == "visit" && inRangeB a b e && searchCat e.category

/-- `COALESCE(SUM(dwell_ms), 0)` over a list of events: sum of the
non-null `dwell_ms` values (zero when there are none). -/
def sumDwell (es : List RawEvent) : ℤ := (es.filterMap (·.dwell_ms)).sum

/-- The per-host dwell sums of the `GROUP BY host` query, one sum per
distinct host value of the in-window dwell events. -/
def hostSums (es : List RawEvent) (a b : ℤ) : List ℤ :=
  ((dwellEvents es a b).map (·.host)).dedup.map fun h =>
    sumDwell ((dwellEvents es a b).filter (·.host == h))

/-- `computeMetrics(aMs, bMs)` from `src/data_collector_2/server/server.js`:
computes the ten behavioural metrics over the events whose `ts` lies in
the (inclusive, via SQL `BETWEEN`) range `[a, b]`.  `hr` is the
local-time hour function used by the late-night query. -/
def computeMetrics (hr : ℤ → ℕ) (es : List RawEvent) (a b : ℤ) : FeatureRow :=
  let dwellTotal : ℤ := sumDwell (dwellEvents es a b)
  let late : ℤ := sumDwell (lateEvents hr es a b)
  let snsEnt : ℤ := sumDwell (snsEntEvents es a b)
  let sessions := sessionList es a b
  let sessionMax : ℤ := match sessions with | [] => 0 | x :: xs => xs.foldl max x
  let sessionMean : ℚ :=
    if sessions.length = 0 then 0 else (sessions.sum : ℚ) / (sessions.length : ℚ)
  let shortCnt : ℕ := (sessions.filter fun ms => decide (ms ≤ 10000)).length
  let bounceRatio : ℚ :=
    if sessions.length = 0 then 0 else (shortCnt : ℚ) / (sessions.length : ℚ)
  let counts : List ℤ := (tabEvents es a b).filterMap (·.count)
  let avgTabCnt : ℚ :=
    if counts.length = 0 then 0 else (counts.sum : ℚ) / (counts.length : ℚ)
  let searchFreq : ℕ := (searchVisitEvents es a b).length
  let topMs : ℤ := ((sortDesc (hostSums es a b)).take 5).sum
  let repeatSiteRatio : ℚ :=
    if 0 < dwellTotal then (topMs : ℚ) / (dwellTotal : ℚ) else 0
  { total_usage := toMin (dwellTotal : ℚ)
    late_night_ratio := safeRatio late dwellTotal
    sns_ent_ratio := safeRatio snsEnt dwellTotal
    session_length_max := toMin (sessionMax : ℚ)
    session_length_mean := toMin sessionMean
    bounce_ratio := bounceRatio
    avg_tab_cnt := toFixed2 avgTabCnt
    search_freq := (searchFreq : ℚ)
    repeat_site_ratio := repeatSiteRatio }

/-! ## The `DataProcessor` pipeline (`src/machine_learning/DataProcessor`)

A pandas `DataFrame` is embedded as a `Table`: the list of column names
plus a list of rows, each row a function from column name to `Cell`.  A
cell is missing (`NaN`/`NaT`/`NA`), a number (floats, parsed timestamps
and nullable integers are all embedded as `ℚ`), or non-numeric text.
Numeric strings are embedded as already-parsed `num` cells, so
`pd.to_numeric(..., errors="coerce")` sends exactly the `txt` cells to
missing. -/

/-- One DataFrame cell. -/
inductive Cell where
  | na : Cell
  | num (q : ℚ) : Cell
  | txt (s : String) : Cell
deriving DecidableEq

/-- A pandas DataFrame: column names plus rows (a row maps a column name
to its cell; only names listed in `cols` are meaningful). -/
structure Table where
  cols : List String
  rows : List (String → Cell)

/-- The all-missing row, used as lookup default. -/
def dfltRow : String → Cell := fun _ => Cell.na

/-- Cell `i` of column `c` of a table. -/
def rowCell (t : Table) (i : ℕ) (c : String) : Cell := (t.rows.getD i dfltRow) c

/-- The numeric value of a cell, `none` on missing/text (pandas `notna`
holds of a coerced cell exactly when this is `some`). -/
def cellQ? : Cell → Option ℚ
  | Cell.num q => some q
  | _ => none

/-- Rewrites one column of every row (`df[c] = df[c].map f`, the shape of
every column-wise assignment in `DataProcessor`). -/
def mapCol (c : String) (f : Cell → Cell) (t : Table) : Table :=
  ⟨t.cols, t.rows.map fun r => fun c' => if c' = c then f (r c) else r c'⟩

/-- The failure `value` field: a plain cell value, the
`{"start": .., "end": ..}` pair of the date check, or the `"N/A"` of the
consistency check. -/
inductive FailVal where
  | cell (c : Cell) : FailVal
  | range (s e : Cell) : FailVal
  | nA : FailVal
deriving DecidableEq

/-- One entry of the `failure_rows` list built by `_validate_data`. -/
structure Failure where
  index : ℕ
  column : String
  reason : String
  value : FailVal
deriving DecidableEq

/-- The error taxonomy of the pipeline (`DataProcessingError` messages of
`DataProcessor`, plus the `ValueError` of `predict_dataframe`). -/
inductive ProcError where
  | missingColumns (cols : List String) : ProcError
  | validationFailed (problems : ℕ) (failures : List Failure) : ProcError
  | notFitted : ProcError
  | emptyInput : ProcError
deriving DecidableEq

namespace DataProcessor

/-- `REQUIRED_COLUMNS` of `DataProcessor`. -/
def REQUIRED_COLUMNS : List String :=
  ["period_start", "period_end", "session_length_max", "session_length_mean",
   "avg_tab_cnt", "search_freq", "ad_click_rate"]

/-- `NUMERIC_COLUMNS` of `DataProcessor`. -/
def NUMERIC_COLUMNS : List String :=
  ["session_length_max", "session_length_mean", "avg_tab_cnt", "search_freq"]

/-- `RATIO_COLUMNS` of `DataProcessor`. -/
def RATIO_COLUMNS : List String := ["ad_click_rate"]

/-- `INTEGER_COLUMNS` of `DataProcessor`. -/
def INTEGER_COLUMNS : List String := ["avg_tab_cnt", "search_freq"]

/-- `pd.to_numeric(..., errors="coerce")` on one cell: numbers stay,
anything non-numeric becomes missing. -/
def toNumericCell : Cell → Cell
  | Cell.num q => Cell.num q
  | _ => Cell.na

/-- `pd.to_datetime(..., errors="coerce")` on one cell: parsed timestamps
are embedded as their numeric value, unparseable text becomes `NaT`. -/
def toDatetimeCell : Cell → Cell
  | Cell.num q => Cell.num q
  | _ => Cell.na

/-- Step 1-2 of `_validate_data`: coerce `NUMERIC_COLUMNS + RATIO_COLUMNS`
to numbers (guarded by column presence, as in the source). -/
def coerceNumeric (t : Table) : Table :=
  (NUMERIC_COLUMNS ++ RATIO_COLUMNS).foldl
    (fun acc c => if c ∈ acc.cols then mapCol c toNumericCell acc else acc) t

/-- Step 1-3 (first half) of `_validate_data`: parse the two period
columns to timestamps. -/
def parseDates (t : Table) : Table :=
  (["period_start", "period_end"]).foldl
    (fun acc c => if c ∈ acc.cols then mapCol c toDatetimeCell acc else acc) t

/-- The coerced table handed to all row checks and returned on success. -/
def coerced (t : Table) : Table := parseDates (coerceNumeric t)

/-- Step 1-3 (second half): rows where both periods parse and
`period_end < period_start`. -/
def dateFailures (t : Table) : List Failure :=
  if "period_start" ∈ t.cols ∧ "period_end" ∈ t.cols then
    t.rows.enum.filterMap fun p =>
      match cellQ? (p.2 "period_start"), cellQ? (p.2 "period_end") with
      | some s, some e =>
        if e < s then
          some ⟨p.1, "period_start/period_end", "end_before_start",
                FailVal.range (p.2 "period_start") (p.2 "period_end")⟩
        else none
      | _, _ => none
  else []

/-- Step 1-4 for one ratio column: non-missing values outside `[0, 1]`. -/
def ratioColFailures (t : Table) (c : String) : List Failure :=
  if c ∈ t.cols then
    t.rows.enum.filterMap fun p =>
      match cellQ? (p.2 c) with
      | some q =>
        if q < 0 ∨ 1 < q then
          some ⟨p.1, c, "ratio_out_of_bounds", FailVal.cell (p.2 c)⟩
        else none
      | none => none
  else []

/-- Step 1-4 of `_validate_data` over all `RATIO_COLUMNS`. -/
def ratioFailures (t : Table) : List Failure :=
  (RATIO_COLUMNS.map (ratioColFailures t)).flatten

/-- Step 1-5 of `_validate_data`: rows where both session lengths are
present and `session_length_max < session_length_mean`. -/
def consistencyFailures (t : Table) : List Failure :=
  if "session_length_max" ∈ t.cols ∧ "session_length_mean" ∈ t.cols then
    t.rows.enum.filterMap fun p =>
      match cellQ? (p.2 "session_length_max"), cellQ? (p.2 "session_length_mean") with
      | some mx, some mn =>
        if mx < mn then
          some ⟨p.1, "session_length_max/mean", "max_less_than_mean", FailVal.nA⟩
        else none
      | _, _ => none
  else []

/-- Step 1-6 for one integer column: non-missing values with a nonzero
fractional part. -/
def intColFailures (t : Table) (c : String) : List Failure :=
  if c ∈ t.cols then
    t.rows.enum.filterMap fun p =>
      match cellQ? (p.2 c) with
      | some q =>
        if q.den ≠ 1 then some ⟨p.1, c, "non_integer_value", FailVal.cell (p.2 c)⟩
        else none
      | none => none
  else []

/-- Step 1-6 of `_validate_data` over all `INTEGER_COLUMNS`. -/
def integerFailures (t : Table) : List Failure :=
  (INTEGER_COLUMNS.map (intColFailures t)).flatten

/-- The full `failure_rows` list, in the order the source appends:
date check, ratio check, consistency check, integer check. -/
def allFailures (t : Table) : List Failure :=
  dateFailures t ++ ratioFailures t ++ consistencyFailures t ++ integerFailures t

/-- The `expected_columns` absent from the table. -/
def missingOf (t : Table) : List String :=
  REQUIRED_COLUMNS.filter fun c => decide (c ∉ t.cols)

/-- `_validate_data`: the missing-column check aborts immediately;
otherwise the table is coerced, all four row checks are accumulated, and
any problem raises `ValidationFailed` carrying the failure list (the
source writes it to `validation_failures.csv`); with no problems the
coerced copy is returned. -/
def validateData (t : Table) : Except ProcError Table :=
  if missingOf t ≠ [] then Except.error (ProcError.missingColumns (missingOf t))
  else
    let tc := coerced t
    let fs := allFailures tc
    if fs ≠ [] then Except.error (ProcError.validationFailed fs.length fs)
    else Except.ok tc

/-- Insertion into an ascending-sorted list of rationals. -/
def insAscQ (x : ℚ) : List ℚ → List ℚ
  | [] => [x]
  | y :: ys => if x ≤ y then x :: y :: ys else y :: insAscQ x ys

/-- Ascending sort of a list of rationals (the order pandas uses for
medians and quantiles). -/
def sortAscQ : List ℚ → List ℚ
  | [] => []
  | x :: xs => insAscQ x (sortAscQ xs)

/-- The non-missing numeric values of a column, in row order
(`df[c].dropna()`). -/
def colValues (t : Table) (c : String) : List ℚ :=
  t.rows.filterMap fun r => cellQ? (r c)

/-- pandas `Series.median(skipna=True)`: middle of the sorted non-missing
values, or the mean of the two middles; `NaN` (here `none`) when there
are none. -/
def median? (xs : List ℚ) : Option ℚ :=
  let s := sortAscQ xs
  let n := s.length
  if n = 0 then none
  else if n % 2 = 1 then some (s.getD (n / 2) 0)
  else some ((s.getD (n / 2 - 1) 0 + s.getD (n / 2) 0) / 2)

/-- pandas `Series.quantile(q)` with the default linear interpolation:
at position `q * (n - 1)` of the sorted values. -/
def quantile (xs : List ℚ) (q : ℚ) : ℚ :=
  let s := sortAscQ xs
  let n := s.length
  let pos : ℚ := q * ((n : ℚ) - 1)
  let i : ℕ := (⌊pos⌋).toNat
  let frac : ℚ := pos - (⌊pos⌋ : ℚ)
  let lo := s.getD i 0
  let hi := s.getD (i + 1) lo
  lo + frac * (hi - lo)

/-- numpy/pandas `round()`: round half to even. -/
def roundHalfEven (q : ℚ) : ℤ :=
  let f := ⌊q⌋
  let frac := q - (f : ℚ)
  if frac < 1/2 then f
  else if 1/2 < frac then f + 1
  else if f % 2 = 0 then f else f + 1

/-- `fillna(median)` on one cell. -/
def fillCell (med : Option ℚ) : Cell → Cell
  | Cell.na => match med with | some m => Cell.num m | none => Cell.na
  | x => x

/-- pandas `.round()` on one cell (applied column-wide before the
`astype("Int64")` of integer columns). -/
def roundCell : Cell → Cell
  | Cell.num q => Cell.num (roundHalfEven q : ℚ)
  | x => x

/-- Step 2-1 of `_preprocess_data` for one numeric column: fill missing
values with the column median; integer columns are additionally rounded
(then cast to `Int64`, a representation change). -/
def fillNumCol (t : Table) (c : String) : Table :=
  if c ∈ t.cols then
    let med := median? (colValues t c)
    if c ∈ INTEGER_COLUMNS then mapCol c (fun cell => roundCell (fillCell med cell)) t
    else mapCol c (fillCell med) t
  else t

/-- Step 2-1 of `_preprocess_data` for one ratio column:
`fillna(0.0).clip(lower=0.0, upper=1.0)`. -/
def ratioFillCol (t : Table) (c : String) : Table :=
  if c ∈ t.cols then
    mapCol c (fun cell =>
      match cell with
      | Cell.na => Cell.num 0
      | Cell.num q => Cell.num (max 0 (min 1 q))
      | x => x) t
  else t

/-- Step 2-2 of `_preprocess_data` for one numeric column: IQR capping,
only when at least 8 non-missing values and `IQR > 0`; values outside
`[Q1 - 1.5 IQR, Q3 + 1.5 IQR]` are clamped to the nearest bound. -/
def capCol (t : Table) (c : String) : Table :=
  if c ∈ t.cols then
    let col := colValues t c
    if 8 ≤ col.length then
      let q1 := quantile col (1/4)
      let q3 := quantile col (3/4)
      let iqr := q3 - q1
      if 0 < iqr then
        let lo := q1 - 3/2 * iqr
        let hi := q3 + 3/2 * iqr
        mapCol c (fun cell =>
          match cell with
          | Cell.num q => Cell.num (if q < lo then lo else if hi < q then hi else q)
          | x => x) t
      else t
    else t
  else t

/-- `_preprocess_data`: median imputation over the numeric columns, then
ratio fill-and-clip, then IQR capping over the numeric columns. -/
def preprocessData (t : Table) : Table :=
  let t1 := NUMERIC_COLUMNS.foldl fillNumCol t
  let t2 := RATIO_COLUMNS.foldl ratioFillCol t1
  NUMERIC_COLUMNS.foldl capCol t2

/-- The columns selected for scaling:
`[c for c in NUMERIC_COLUMNS + RATIO_COLUMNS if c in df.columns]`. -/
def colsToScale (t : Table) : List String :=
  (NUMERIC_COLUMNS ++ RATIO_COLUMNS).filter fun c => decide (c ∈ t.cols)

/-- The per-column mean sklearn's `StandardScaler` fits (over the cleaned
column values). -/
def colMean (t : Table) (c : String) : ℚ :=
  let v := colValues t c
  if v.length = 0 then 0 else v.sum / (v.length : ℚ)

/-- The per-column population variance (`ddof = 0`) `StandardScaler`
fits; its `scale_` is `sqrt` of this (1 when the variance is zero). -/
def colVar (t : Table) (c : String) : ℚ :=
  let v := colValues t c
  let m := colMean t c
  if v.length = 0 then 0 else (v.map fun x => (x - m) ^ 2).sum / (v.length : ℚ)

/-- Whether a candidate `scale_` assignment is the one `StandardScaler`
would fit on `t`: the non-negative square root of each scaled column's
variance, and 1 for a zero-variance column.  (`√` is irrational in
general, so the embedding carries `scale_` as a parameter constrained by
this predicate instead of computing it.) -/
def validScale (std : String → ℚ) (t : Table) : Bool :=
  (colsToScale t).all fun c =>
    let v := colVar t c
    if v = 0 then std c == 1
    else decide (0 ≤ std c) && (std c * std c == v)

/-- The fitted state `transform` reuses: per-column `mean_` and `scale_`
of the `StandardScaler` fitted by `fit_transform`. -/
structure ScalerFit where
  mean : String → ℚ
  scale : String → ℚ

/-- `scaler.fit_transform` / `scaler.transform` applied to the scaled
columns: every numeric cell of a scaled column becomes
`(x - mean c) / scale c`. -/
def scaleTable (sc : ScalerFit) (t : Table) : Table :=
  (colsToScale t).foldl
    (fun acc c => mapCol c (fun cell =>
      match cell with
      | Cell.num q => Cell.num ((q - sc.mean c) / sc.scale c)
      | x => x) acc) t

/-- The `df_processed` intermediate of `fit_transform`: the validated,
cleaned, not yet standardized table (the empty DataFrame on validation
failure). -/
def fitCleaned (t : Table) : Table :=
  match validateData t with
  | Except.ok tv => preprocessData tv
  | Except.error _ => ⟨[], []⟩

/-- `fit_transform` of `DataProcessor`, with the fitted `scale_` supplied
as a `std` parameter (see `validScale`).  The `DataProcessingError`
raised by `_validate_data` is caught inside `fit_transform`: on any
validation failure it returns the empty DataFrame and leaves
`self._scaler = None`; otherwise it returns the standardized table and
the fitted scaler state. -/
def fitTransform (std : String → ℚ) (t : Table) : Table × Option ScalerFit :=
  match validateData t with
  | Except.error _ => (⟨[], []⟩, none)
  | Except.ok tv =>
    let tp := preprocessData tv
    (scaleTable ⟨fun c => colMean tp c, std⟩ tp, some ⟨fun c => colMean tp c, std⟩)

/-- `transform` of `DataProcessor`: raises `NotFitted` when no scaler has
been fitted; otherwise re-runs `_validate_data` (whose error propagates
to the caller uncaught), re-runs `_preprocess_data` on the new data, and
applies the stored scaler parameters. -/
def transformDP (fitted : Option ScalerFit) (t : Table) : Except ProcError Table :=
  match fitted with
  | none => Except.error ProcError.notFitted
  | some sc =>
    match validateData t with
    | Except.error e => Except.error e
    | Except.ok tv => Except.ok (scaleTable sc (preprocessData tv))

end DataProcessor

/-! ## The inference pipeline (`src/Machine_Learning/predict_pipeline`)

`predict_dataframe` loads three artifacts and appends `risk_proba` and
`risk_flag` to the input table.  The artifact loaders and the classifier
live in modules that are not part of the repository sources
(`src.machine_learning.artifacts`), so they are abstracted: the
processor is a fitted `ScalerFit` state (its `transform` is
`DataProcessor.transformDP`), the classifier is an abstract per-row
probability function (`model.predict_proba(X)[:, 1]` of a row-wise
sklearn model), and the threshold loader is modelled from the spec. -/

/-- Modelled from the spec: the decision-threshold artifact loader
(`load_threshold(artifacts_dir, default=0.5)`); the loader module is not
in the sources.  Spec: "decision threshold ∈ [0,1], default 0.5 if
absent". -/
def loadThreshold (stored : Option ℚ) (dflt : ℚ) : ℚ := stored.getD dflt

/-- The three artifacts `predict_dataframe` reads from `artifacts_dir`,
plus the abstract classifier. -/
structure Artifacts where
  threshold : Option ℚ
  scaler : Option DataProcessor.ScalerFit
  probaOf : (String → Cell) → ℚ

/-- Appending the result columns: `out = df.copy();
out["risk_proba"] = proba; out["risk_flag"] = (proba >= thr)`. -/
def appendRisk (t : Table) (ps : List ℚ) (thr : ℚ) : Table :=
  ⟨t.cols ++ ["risk_proba", "risk_flag"],
   (t.rows.zip ps).map fun p => fun c =>
     if c = "risk_proba" then Cell.num p.2
     else if c = "risk_flag" then Cell.num (if thr ≤ p.2 then 1 else 0)
     else p.1 c⟩

/-- `predict_dataframe` (with its default `do_validate=False` path): an
empty input `df` raises `ValueError` (`EmptyInput`); otherwise the
fitted processor's `transform` runs (its errors propagate), the
classifier produces one probability per transformed row, and the input
table is returned with `risk_proba` and `risk_flag` appended. -/
def predictDataframe (art : Artifacts) (t : Table) : Except ProcError Table :=
  if t.rows.length = 0 ∨ t.cols.length = 0 then Except.error ProcError.emptyInput
  else
    match DataProcessor.transformDP art.scaler t with
    | Except.error e => Except.error e
    | Except.ok X =>
      Except.ok (appendRisk t (X.rows.map art.probaOf) (loadThreshold art.threshold (1/2)))

/-! ## Projections and concrete fixtures used by the theorems -/

/-- The failure list carried by a `ValidationFailed` error (empty
otherwise). -/
def failuresOf : Except ProcError Table → List Failure
  | Except.error (ProcError.validationFailed _ fs) => fs
  | _ => []

/-- The table of a successful result (the empty table on error). -/
def okT : Except ProcError Table → Table
  | Except.ok t => t
  | Except.error _ => ⟨[], []⟩

/-- A FeatureRow-schema row literal. -/
def mkRow (ps pe mx mn tab sf ad : Cell) : String → Cell := fun c =>
  if c = "period_start" then ps
  else if c = "period_end" then pe
  else if c = "session_length_max" then mx
  else if c = "session_length_mean" then mn
  else if c = "avg_tab_cnt" then tab
  else if c = "search_freq" then sf
  else if c = "ad_click_rate" then ad
  else Cell.na

/-- A one-row table every validation check accepts. -/
def tblOK : Table :=
  ⟨DataProcessor.REQUIRED_COLUMNS,
   [mkRow (Cell.num 0) (Cell.num 1) (Cell.num 2) (Cell.num 1) (Cell.num 3)
      (Cell.num 4) (Cell.num (1/2))]⟩

/-- A one-row table with negative values in the numeric columns
`session_length_max` and `session_length_mean` (and `max ≥ mean`). -/
def tblNeg : Table :=
  ⟨DataProcessor.REQUIRED_COLUMNS,
   [mkRow (Cell.num 0) (Cell.num 1) (Cell.num (-2)) (Cell.num (-3)) (Cell.num 1)
      (Cell.num 0) (Cell.num (1/2))]⟩

/-- A one-row table whose only defect is `ad_click_rate = 1.5`. -/
def tblBadRatio : Table :=
  ⟨DataProcessor.REQUIRED_COLUMNS,
   [mkRow (Cell.num 0) (Cell.num 1) (Cell.num 2) (Cell.num 1) (Cell.num 3)
      (Cell.num 4) (Cell.num (3/2))]⟩

/-- Two rows: row 0 fails only the integer check (`avg_tab_cnt = 1.5`),
row 1 fails only the ratio check (`ad_click_rate = 1.5`). -/
def tblUnsorted : Table :=
  ⟨DataProcessor.REQUIRED_COLUMNS,
   [mkRow (Cell.num 0) (Cell.num 1) (Cell.num 2) (Cell.num 1) (Cell.num (3/2))
      (Cell.num 4) (Cell.num (1/2)),
    mkRow (Cell.num 0) (Cell.num 1) (Cell.num 2) (Cell.num 1) (Cell.num 3)
      (Cell.num 4) (Cell.num (3/2))]⟩

/-- `tblOK` with the `ad_click_rate` column removed. -/
def tblMissing : Table :=
  ⟨["period_start", "period_end", "session_length_max", "session_length_mean",
    "avg_tab_cnt", "search_freq"],
   [mkRow (Cell.num 0) (Cell.num 1) (Cell.num 2) (Cell.num 1) (Cell.num 3)
      (Cell.num 4) Cell.na]⟩

/-- Two valid rows whose `ad_click_rate` values are 0 and 1 (variance
1/4, so the fitted `scale_` is 1/2); every numeric column is constant
(variance 0, `scale_` 1). -/
def tbl01 : Table :=
  ⟨DataProcessor.REQUIRED_COLUMNS,
   [mkRow (Cell.num 0) (Cell.num 1) (Cell.num 2) (Cell.num 1) (Cell.num 3)
      (Cell.num 4) (Cell.num 0),
    mkRow (Cell.num 0) (Cell.num 1) (Cell.num 2) (Cell.num 1) (Cell.num 3)
      (Cell.num 4) (Cell.num 1)]⟩

/-- The `scale_` assignment `StandardScaler` fits on `tbl01`. -/
def std01 : String → ℚ := fun c => if c = "ad_click_rate" then 1/2 else 1

/-- Eight valid rows whose `avg_tab_cnt` values are 0,1,2,3,4,5,6,100:
enough non-missing values for IQR capping (Q1 = 1.75, Q3 = 5.25,
upper bound 10.5), which caps the integer value 100 to the non-integer
10.5. -/
def tbl8 : Table :=
  ⟨DataProcessor.REQUIRED_COLUMNS,
   ([0, 1, 2, 3, 4, 5, 6, 100] : List ℚ).map fun v =>
     mkRow (Cell.num 0) (Cell.num 1) (Cell.num 2) (Cell.num 1) (Cell.num v)
       (Cell.num 4) (Cell.num (1/2))⟩

/-- A fitted scaler state with identity parameters, used where only the
presence of a fitted state matters. -/
def sc0 : DataProcessor.ScalerFit := ⟨fun _ => 0, fun _ => 1⟩

/-- Concrete artifacts: no stored threshold (so the default 0.5 is
used), the `sc0` fitted processor state, and a classifier that returns
probability 3/4 for every row. -/
def art1 : Artifacts := ⟨none, some sc0, fun _ => 3/4⟩

/-- A concrete local-hour function (noon everywhere; the late-night
query is then empty). -/
def hrNoon : ℤ → ℕ := fun _ => 12

/-- Scenario A of the spec: three dwell events of 5,000 ms, 15,000 ms
and 95,000 ms. -/
def scnA : List RawEvent :=
  [{ ts := 10, type := "dwell", dwell_ms := some 5000 },
   { ts := 20, type := "dwell", dwell_ms := some 15000 },
   { ts := 30, type := "dwell", dwell_ms := some 95000 }]

/-- A single dwell event sitting exactly at `ts = 1000`. -/
def evEnd : RawEvent := { ts := 1000, type := "dwell", dwell_ms := some 60000 }

/-! ## General lemmas -/

/-- Filtering by `q` after filtering by a weaker predicate `p` is just
filtering by `q`. -/
theorem filter_filter_of_imp {α : Type} (p q : α → Bool)
    (h : ∀ x, q x = true → p x = true) :
    ∀ l : List α, (l.filter p).filter q = l.filter q := by
  intro l
  induction l with
  | nil => rfl
  | cons x xs ih =>
    by_cases hp : p x = true
    · by_cases hq : q x = true
      · simp [List.filter_cons, hp, hq, ih]
      · simp [List.filter_cons, hp, hq, ih]
    · have hq : ¬ q x = true := fun hq => hp (h x hq)
      simp [List.filter_cons, hp, hq, ih]

/-- A filter by a stronger predicate of an empty filter is empty. -/
theorem filter_nil_of_imp {α : Type} (p q : α → Bool)
    (h : ∀ x, q x = true → p x = true) (l : List α)
    (hp : l.filter p = []) : l.filter q = [] := by
  have := filter_filter_of_imp p q h l
  rw [hp] at this
  exact this.symm

theorem dwellEvents_filter (es : List RawEvent) (a b : ℤ) :
    dwellEvents (es.filter (inRangeB a b)) a b = dwellEvents es a b :=
  filter_filter_of_imp _ _
    (fun x hx => by simp only [Bool.and_eq_true] at hx; exact hx.2) es

theorem lateEvents_filter (hr : ℤ → ℕ) (es : List RawEvent) (a b : ℤ) :
    lateEvents hr (es.filter (inRangeB a b)) a b = lateEvents hr es a b :=
  filter_filter_of_imp _ _
    (fun x hx => by simp only [Bool.and_eq_true] at hx; exact hx.1.2) es

theorem snsEntEvents_filter (es : List RawEvent) (a b : ℤ) :
    snsEntEvents (es.filter (inRangeB a b)) a b = snsEntEvents es a b :=
  filter_filter_of_imp _ _
    (fun x hx => by simp only [Bool.and_eq_true] at hx; exact hx.1.2) es

theorem sessionList_filter (es : List RawEvent) (a b : ℤ) :
    sessionList (es.filter (inRangeB a b)) a b = sessionList es a b := by
  unfold sessionList
  rw [filter_filter_of_imp _ _
    (fun x hx => by simp only [Bool.and_eq_true] at hx; exact hx.1.2) es]

theorem tabEvents_filter (es : List RawEvent) (a b : ℤ) :
    tabEvents (es.filter (inRangeB a b)) a b = tabEvents es a b :=
  filter_filter_of_imp _ _
    (fun x hx => by simp only [Bool.and_eq_true] at hx; exact hx.2) es

theorem searchVisitEvents_filter (es : List RawEvent) (a b : ℤ) :
    searchVisitEvents (es.filter (inRangeB a b)) a b = searchVisitEvents es a b :=
  filter_filter_of_imp _ _
    (fun x hx => by simp only [Bool.and_eq_true] at hx; exact hx.1.2) es

theorem hostSums_filter (es : List RawEvent) (a b : ℤ) :
    hostSums (es.filter (inRangeB a b)) a b = hostSums es a b := by
  unfold hostSums
  rw [dwellEvents_filter]

/-- An empty window (`b < a`) matches no event. -/
theorem inRangeB_of_lt {a b : ℤ} (h : b < a) (e : RawEvent) :
    inRangeB a b e = false := by
  rw [Bool.eq_false_iff]
  intro hc
  simp only [inRangeB, Bool.and_eq_true, decide_eq_true_eq] at hc
  omega

/-! ## Claim C1 -/

/-- C1.  Over a window containing no dwell event (so the total dwell
time is 0) and no tab-count event, `computeMetrics` returns exactly `0`
for `late_night_ratio`, `sns_ent_ratio`, `bounce_ratio`,
`repeat_site_ratio` and `avg_tab_cnt` — in particular no division by the
zero denominator is attempted (the `safeRatio` and the emptiness guards
of `computeMetrics` return `0` instead), so the result is never `NaN`
and never an error. -/
theorem computeMetrics_zero_dwell_ratios (hr : ℤ → ℕ) (es : List RawEvent) (a b : ℤ)
    (hd : dwellEvents es a b = []) (ht : tabEvents es a b = []) :
    (computeMetrics hr es a b).late_night_ratio = 0 ∧
    (computeMetrics hr es a b).sns_ent_ratio = 0 ∧
    (computeMetrics hr es a b).bounce_ratio = 0 ∧
    (computeMetrics hr es a b).repeat_site_ratio = 0 ∧
    (computeMetrics hr es a b).avg_tab_cnt = 0 := by
  unfold dwellEvents at hd
  have hlate : lateEvents hr es a b = [] :=
    filter_nil_of_imp _ _
      (fun x hx => by simp only [Bool.and_eq_true] at hx ⊢; exact hx.1) es hd
  have hsns : snsEntEvents es a b = [] :=
    filter_nil_of_imp _ _
      (fun x hx => by simp only [Bool.and_eq_true] at hx ⊢; exact hx.1) es hd
  have hsess : sessionList es a b = [] := by
    unfold sessionList
    rw [filter_nil_of_imp _ _
      (fun x hx => by simp only [Bool.and_eq_true] at hx ⊢; exact hx.1) es hd]
    rfl
  have hd' : dwellEvents es a b = [] := hd
  have hhost : hostSums es a b = [] := by
    unfold hostSums
    rw [hd']
    rfl
  simp only [computeMetrics, hd', hlate, hsns, hsess, ht, hhost]
  norm_num [sumDwell, safeRatio, toFixed2, jsRound]

/-- C1 witness: a window holding one visit event but no dwell and no
tab-count events. -/
theorem computeMetrics_zero_dwell_ratios_witness :
    (computeMetrics hrNoon [{ ts := 5, type := "visit" }] 0 10).late_night_ratio = 0 ∧
    (computeMetrics hrNoon [{ ts := 5, type := "visit" }] 0 10).sns_ent_ratio = 0 ∧
    (computeMetrics hrNoon [{ ts := 5, type := "visit" }] 0 10).bounce_ratio = 0 ∧
    (computeMetrics hrNoon [{ ts := 5, type := "visit" }] 0 10).repeat_site_ratio = 0 ∧
    (computeMetrics hrNoon [{ ts := 5, type := "visit" }] 0 10).avg_tab_cnt = 0 :=
  computeMetrics_zero_dwell_ratios hrNoon _ 0 10 (by decide) (by decide)

/-! ## Claim C3 -/

/-- C3 counterexample.  The window bounds are NOT half-open: an event
with `ts` equal to `windowEnd` is aggregated (SQL `BETWEEN` is
inclusive), and a call with `windowEnd <= windowStart` is not an error —
with equal bounds the boundary event is still aggregated, and the
function returns a plain `FeatureRow` in every case. -/
theorem computeMetrics_closed_bounds_cex :
    (computeMetrics hrNoon [evEnd] 0 1000).total_usage = 1 ∧
    (computeMetrics hrNoon [evEnd] 1000 1000).total_usage = 1 ∧
    (computeMetrics hrNoon [] 0 1000).total_usage = 0 := by
  decide

/-- C3 amended.  `computeMetrics` aggregates exactly the events with
`windowStart ≤ ts ≤ windowEnd` (closed bounds: restricting the event
log to that range never changes the result), and a call with
`windowEnd < windowStart` is not an error: it returns the same
`FeatureRow` as an empty event log. -/
theorem computeMetrics_closed_window (hr : ℤ → ℕ) (es : List RawEvent) (a b : ℤ) :
    computeMetrics hr (es.filter (inRangeB a b)) a b = computeMetrics hr es a b
    ∧ (b < a → computeMetrics hr es a b = computeMetrics hr [] a b) := by
  constructor
  · unfold computeMetrics
    rw [dwellEvents_filter, lateEvents_filter, snsEntEvents_filter, sessionList_filter,
        tabEvents_filter, searchVisitEvents_filter, hostSums_filter]
  · intro hba
    have hnil : ∀ p : RawEvent → Bool,
        (es.filter fun e => p e && inRangeB a b e) = [] := by
      intro p
      refine List.filter_eq_nil_iff.mpr fun x _ => ?_
      simp [inRangeB_of_lt hba x]
    have hd : dwellEvents es a b = [] := hnil _
    have hlate : lateEvents hr es a b = [] := by
      unfold lateEvents
      refine List.filter_eq_nil_iff.mpr fun x _ => ?_
      simp [inRangeB_of_lt hba x]
    have hsns : snsEntEvents es a b = [] := by
      unfold snsEntEvents
      refine List.filter_eq_nil_iff.mpr fun x _ => ?_
      simp [inRangeB_of_lt hba x]
    have hsess : sessionList es a b = [] := by
      unfold sessionList
      rw [List.filter_eq_nil_iff.mpr fun x _ => by simp [inRangeB_of_lt hba x]]
      rfl
    have ht : tabEvents es a b = [] := hnil _
    have hse : searchVisitEvents es a b = [] := by
      unfold searchVisitEvents
      refine List.filter_eq_nil_iff.mpr fun x _ => ?_
      simp [inRangeB_of_lt hba x]
    have hhost : hostSums es a b = [] := by
      unfold hostSums
      rw [hd]
      rfl
    unfold computeMetrics
    rw [hd, hlate, hsns, hsess, ht, hse, hhost]
    rfl

/-- C3 witness: the filter-stability part at a concrete log and window,
and the reversed-bounds part at `a = 1000 > b = 0`. -/
theorem computeMetrics_closed_window_witness :
    (computeMetrics hrNoon (scnA.filter (inRangeB 0 20)) 0 20 =
       computeMetrics hrNoon scnA 0 20) ∧
    (computeMetrics hrNoon scnA 1000 0 = computeMetrics hrNoon [] 1000 0) :=
  ⟨(computeMetrics_closed_window hrNoon scnA 0 20).1,
   (computeMetrics_closed_window hrNoon scnA 1000 0).2 (by decide)⟩

/-! ## Claim C8 -/

/-- C8 counterexample.  For the Scenario A window (three dwell events of
5,000 ms, 15,000 ms, 95,000 ms) the mean session length in milliseconds
is 115000/3, and `toMin` rounds it to `0.64` minutes — not `0.61` as the
claim states (`0.64` does not round to `0.61`). -/
theorem scenarioA_mean_cex :
    (computeMetrics hrNoon scnA 0 200000).session_length_mean = 64/100 ∧
    (64 : ℚ)/100 ≠ 61/100 := by
  decide

/-- C8 amended.  Scenario A yields `bounce_ratio = 1/3` (only the
5,000 ms session is ≤ 10,000 ms), `session_length_max = 1.58` minutes,
and `session_length_mean = 0.64` minutes (not 0.61). -/
theorem scenarioA_metrics :
    (computeMetrics hrNoon scnA 0 200000).bounce_ratio = 1/3 ∧
    (computeMetrics hrNoon scnA 0 200000).session_length_max = 158/100 ∧
    (computeMetrics hrNoon scnA 0 200000).session_length_mean = 64/100 := by
  decide

open DataProcessor

/-! ## Claim C6 -/

/-- C6.  When at least one expected column is absent, validation aborts
immediately with a missing-column error: the result is the
`missingColumns` error naming exactly the absent `REQUIRED_COLUMNS`; it
is the same for a table with the same columns and no rows at all (so no
row-level check contributed anything); and no partial failure report is
produced (the error carries no `failure_rows`). -/
theorem validateData_missing_columns_aborts (t : Table) (h : missingOf t ≠ []) :
    validateData t = Except.error (ProcError.missingColumns (missingOf t)) ∧
    validateData ⟨t.cols, []⟩ = Except.error (ProcError.missingColumns (missingOf t)) ∧
    failuresOf (validateData t) = [] := by
  have hcols : missingOf (⟨t.cols, []⟩ : Table) = missingOf t := rfl
  refine ⟨?_, ?_, ?_⟩
  · simp [validateData, h]
  · simp [validateData, hcols, h]
  · simp [validateData, h, failuresOf]

/-- C6 witness: `tblMissing` lacks `ad_click_rate`. -/
theorem validateData_missing_columns_aborts_witness :
    validateData tblMissing = Except.error (ProcError.missingColumns ["ad_click_rate"]) := by
  have h := (validateData_missing_columns_aborts tblMissing (by decide)).1
  rw [h]
  rfl

/-! ## Claim C2 -/

/-- C2 counterexample.  On `tblBadRatio` validation finds one problem
(`ad_click_rate = 1.5`), yet `fit_transform` does not fail with an
error the caller observes: the `DataProcessingError` is caught inside
`fit_transform`, which returns normally with an empty DataFrame and no
fitted scaler state.  The caller receives a value, not a
`ValidationFailed` error. -/
theorem fitTransform_swallows_error_cex :
    failuresOf (validateData tblBadRatio) =
      [⟨0, "ad_click_rate", "ratio_out_of_bounds", FailVal.cell (Cell.num (3/2))⟩] ∧
    (fitTransform (fun _ => 1) tblBadRatio).1.rows.length = 0 ∧
    (fitTransform (fun _ => 1) tblBadRatio).1.cols = [] ∧
    (fitTransform (fun _ => 1) tblBadRatio).2.isNone = true := by
  decide

/-- C2 amended.  For every input table on which validation finds
problems, `fit_transform` does not proceed to preprocessing or scaling:
the internally raised `ValidationFailed` error is caught, and fit
returns the empty table (no cleaned rows, no columns) and leaves the
scaler state unfitted (`None`) — but the caller observes this empty
return value, not a raised error. -/
theorem fitTransform_validation_failure_empty (std : String → ℚ) (t : Table)
    (h : (validateData t).isOk = false) :
    (fitTransform std t).1.rows = [] ∧ (fitTransform std t).1.cols = [] ∧
    (fitTransform std t).2 = none := by
  unfold fitTransform
  cases hv : validateData t with
  | error e => simp
  | ok tv => rw [hv] at h; simp [Except.isOk, Except.toBool] at h

/-- C2 witness: the amended theorem at `tblBadRatio`. -/
theorem fitTransform_validation_failure_empty_witness :
    (fitTransform (fun _ => 0) tblBadRatio).1.rows = [] ∧
    (fitTransform (fun _ => 0) tblBadRatio).1.cols = [] ∧
    (fitTransform (fun _ => 0) tblBadRatio).2 = none :=
  fitTransform_validation_failure_empty (fun _ => 0) tblBadRatio (by decide)

/-! ## Claim C10 -/

/-- C10.  `transform` on a fitted preprocessor re-runs the full
validation on its new input table: whenever validation fails (any
problems — out-of-bounds ratio, end-before-start dates, max < mean,
non-integer integer column — or missing columns), `transform` raises
exactly that validation error to the caller and returns no transformed
table; problematic serving-time data is never silently scaled. -/
theorem transformDP_revalidates (sc : ScalerFit) (t : Table)
    (h : (validateData t).isOk = false) :
    ∃ e, validateData t = Except.error e ∧
      transformDP (some sc) t = Except.error e := by
  cases hv : validateData t with
  | error e => exact ⟨e, rfl, by simp [transformDP, hv]⟩
  | ok tv => rw [hv] at h; simp [Except.isOk, Except.toBool] at h

/-- C10 witness: a fitted state and the bad-ratio table. -/
theorem transformDP_revalidates_witness :
    (transformDP (some sc0) tblBadRatio).isOk = false := by
  obtain ⟨e, -, h2⟩ := transformDP_revalidates sc0 tblBadRatio (by decide)
  rw [h2]
  rfl

/-! ## Structural lemmas about tables and validation -/

/-- A column-wise fold whose step preserves the column list preserves
the column list. -/
theorem foldl_cols {f : Table → String → Table}
    (hf : ∀ t c, (f t c).cols = t.cols) :
    ∀ (l : List String) (t : Table), (l.foldl f t).cols = t.cols := by
  intro l
  induction l with
  | nil => intro t; rfl
  | cons c cs ih => intro t; rw [List.foldl_cons, ih, hf]

/-- A column-wise fold whose step preserves the row count preserves the
row count. -/
theorem foldl_rows_length {f : Table → String → Table}
    (hf : ∀ t c, (f t c).rows.length = t.rows.length) :
    ∀ (l : List String) (t : Table), (l.foldl f t).rows.length = t.rows.length := by
  intro l
  induction l with
  | nil => intro t; rfl
  | cons c cs ih => intro t; rw [List.foldl_cons, ih, hf]

theorem coerced_cols (t : Table) : (coerced t).cols = t.cols := by
  unfold coerced parseDates coerceNumeric
  rw [foldl_cols, foldl_cols] <;>
    intro t c <;> by_cases h : c ∈ t.cols <;> simp [h, mapCol]

theorem coerced_rows_length (t : Table) : (coerced t).rows.length = t.rows.length := by
  unfold coerced parseDates coerceNumeric
  rw [foldl_rows_length, foldl_rows_length] <;>
    intro t c <;> by_cases h : c ∈ t.cols <;> simp [h, mapCol]

/-- Unfolding a successful validation: no required column was missing,
no check produced a failure, and the returned table is the coerced
copy of the input. -/
theorem validateData_ok_elim (t tv : Table) (h : validateData t = Except.ok tv) :
    missingOf t = [] ∧ allFailures (coerced t) = [] ∧ tv = coerced t := by
  simp only [validateData] at h
  split at h
  · cases h
  · split at h
    · cases h
    · rename_i h1 h2
      refine ⟨by simpa using h1, by simpa using h2, ?_⟩
      cases h
      rfl

/-- Every required column is present when the missing list is empty. -/
theorem required_mem_of_missing_nil (t : Table) (h : missingOf t = []) :
    ∀ c ∈ REQUIRED_COLUMNS, c ∈ t.cols := by
  intro c hc
  by_contra hn
  have hmem : c ∈ missingOf t :=
    List.mem_filter.mpr ⟨hc, by simpa using hn⟩
  rw [h] at hmem
  cases hmem

/-- Indices in `enumFrom n l` start at `n`. -/
theorem le_fst_of_mem_enumFrom {α : Type} {p : ℕ × α} :
    ∀ {l : List α} {n : ℕ}, p ∈ List.enumFrom n l → n ≤ p.1 := by
  intro l
  induction l with
  | nil => intro n h; cases h
  | cons x xs ih =>
    intro n h
    rw [List.enumFrom_cons, List.mem_cons] at h
    rcases h with h | h
    · rw [h]
    · have := ih h
      omega

/-- A failure list produced by an index-respecting `filterMap` over an
enumeration is ordered by row index. -/
theorem pairwise_index_enumFrom_filterMap {α : Type} (f : ℕ × α → Option Failure)
    (hf : ∀ p fl, f p = some fl → fl.index = p.1) :
    ∀ (l : List α) (n : ℕ),
      ((List.enumFrom n l).filterMap f).Pairwise fun a b => a.index ≤ b.index := by
  intro l
  induction l with
  | nil => intro n; simp
  | cons x xs ih =>
    intro n
    rw [List.enumFrom_cons, List.filterMap_cons]
    cases hfx : f (n, x) with
    | none => exact ih (n + 1)
    | some fl =>
      refine List.Pairwise.cons ?_ (ih (n + 1))
      intro g hg
      obtain ⟨p, hp, hpg⟩ := List.mem_filterMap.mp hg
      have h1 := hf _ _ hfx
      have h2 := hf _ _ hpg
      have h3 := le_fst_of_mem_enumFrom hp
      omega

/-- Specialization to `List.enum`. -/
theorem pairwise_index_enum_filterMap {α : Type} (f : ℕ × α → Option Failure)
    (hf : ∀ p fl, f p = some fl → fl.index = p.1) (l : List α) :
    (l.enum.filterMap f).Pairwise fun a b => a.index ≤ b.index :=
  pairwise_index_enumFrom_filterMap f hf l 0

/-! ## Claim C4 -/

/-- C4 counterexample.  `tblNeg` passes validation (`problems == 0`)
although its accepted table holds the negative value `-2` in the numeric
column `session_length_max` (and `-3` in `session_length_mean`):
`_validate_data` has no negative-value check for non-ratio numeric
columns. -/
theorem validator_accepts_negative_numeric_cex :
    (validateData tblNeg).isOk = true ∧
    rowCell (okT (validateData tblNeg)) 0 "session_length_max" = Cell.num (-2) ∧
    ((-2 : ℚ) < 0) := by
  refine ⟨by decide, by decide, by norm_num⟩

/-- C4 amended.  On any table accepted by validation, the ratio column
`ad_click_rate` (the only column with a sign-constraining check) is
within `[0, 1]` wherever it is non-missing; other numeric columns may be
negative. -/
theorem validator_accepted_ratio_bounds (t : Table) (i : ℕ) (q : ℚ)
    (h : rowCell (okT (validateData t)) i "ad_click_rate" = Cell.num q) :
    0 ≤ q ∧ q ≤ 1 := by
  cases hv : validateData t with
  | error e =>
    rw [hv] at h
    simp [okT, rowCell, dfltRow] at h
  | ok tv =>
    rw [hv] at h
    obtain ⟨hmiss, hfail, htv⟩ := validateData_ok_elim t tv hv
    rw [← htv] at hfail
    simp only [allFailures, List.append_eq_nil] at hfail
    have hr : ratioColFailures tv "ad_click_rate" = [] := by
      have hr0 := hfail.1.1.2
      simpa [ratioFailures, RATIO_COLUMNS] using hr0
    have hmem : "ad_click_rate" ∈ tv.cols := by
      rw [htv, coerced_cols]
      exact required_mem_of_missing_nil t hmiss _ (by simp [REQUIRED_COLUMNS])
    unfold ratioColFailures at hr
    rw [if_pos hmem] at hr
    rw [show okT (Except.ok tv) = tv from rfl] at h
    unfold rowCell at h
    rw [List.getD_eq_getElem?_getD] at h
    cases hg : tv.rows[i]? with
    | none => rw [hg] at h; simp [dfltRow] at h
    | some r =>
      rw [hg] at h
      simp only [Option.getD_some] at h
      have hmemEnum : (i, r) ∈ tv.rows.enum := by
        rw [List.mk_mem_enum_iff_getElem?]
        exact hg
      have hnone := (List.filterMap_eq_nil_iff.mp hr) _ hmemEnum
      dsimp only at hnone
      rw [h] at hnone
      simp only [cellQ?] at hnone
      by_cases hc : q < 0 ∨ 1 < q
      · rw [if_pos hc] at hnone; cases hnone
      · push_neg at hc
        exact hc

/-- C4 witness: the amended theorem at `tblOK` (whose
`ad_click_rate` is 1/2). -/
theorem validator_accepted_ratio_bounds_witness :
    0 ≤ (1 : ℚ)/2 ∧ (1 : ℚ)/2 ≤ 1 :=
  validator_accepted_ratio_bounds tblOK 0 (1/2) (by decide)

/-! ## Claim C7 -/

/-- The date-check failures are ordered by row index. -/
theorem dateFailures_sorted (t : Table) :
    (dateFailures t).Pairwise fun a b => a.index ≤ b.index := by
  unfold dateFailures
  split
  · apply pairwise_index_enum_filterMap
    intro p fl hfl
    cases h1 : cellQ? (p.2 "period_start") with
    | none => simp only [h1] at hfl; cases hfl
    | some s =>
      cases h2 : cellQ? (p.2 "period_end") with
      | none => simp only [h1, h2] at hfl; cases hfl
      | some e =>
        simp only [h1, h2] at hfl
        by_cases hc : e < s
        · rw [if_pos hc] at hfl; cases hfl; rfl
        · rw [if_neg hc] at hfl; cases hfl
  · simp

/-- The ratio-check failures of one column are ordered by row index. -/
theorem ratioColFailures_sorted (t : Table) (c : String) :
    (ratioColFailures t c).Pairwise fun a b => a.index ≤ b.index := by
  unfold ratioColFailures
  split
  · apply pairwise_index_enum_filterMap
    intro p fl hfl
    cases h1 : cellQ? (p.2 c) with
    | none => simp only [h1] at hfl; cases hfl
    | some q =>
      simp only [h1] at hfl
      by_cases hc : q < 0 ∨ 1 < q
      · rw [if_pos hc] at hfl; cases hfl; rfl
      · rw [if_neg hc] at hfl; cases hfl
  · simp

/-- The consistency-check failures are ordered by row index. -/
theorem consistencyFailures_sorted (t : Table) :
    (consistencyFailures t).Pairwise fun a b => a.index ≤ b.index := by
  unfold consistencyFailures
  split
  · apply pairwise_index_enum_filterMap
    intro p fl hfl
    cases h1 : cellQ? (p.2 "session_length_max") with
    | none => simp only [h1] at hfl; cases hfl
    | some mx =>
      cases h2 : cellQ? (p.2 "session_length_mean") with
      | none => simp only [h1, h2] at hfl; cases hfl
      | some mn =>
        simp only [h1, h2] at hfl
        by_cases hc : mx < mn
        · rw [if_pos hc] at hfl; cases hfl; rfl
        · rw [if_neg hc] at hfl; cases hfl
  · simp

/-- The integer-check failures of one column are ordered by row index. -/
theorem intColFailures_sorted (t : Table) (c : String) :
    (intColFailures t c).Pairwise fun a b => a.index ≤ b.index := by
  unfold intColFailures
  split
  · apply pairwise_index_enum_filterMap
    intro p fl hfl
    cases h1 : cellQ? (p.2 c) with
    | none => simp only [h1] at hfl; cases hfl
    | some q =>
      simp only [h1] at hfl
      by_cases hc : q.den ≠ 1
      · rw [if_pos hc] at hfl; cases hfl; rfl
      · rw [if_neg hc] at hfl; cases hfl
  · simp

/-- C7 counterexample.  On `tblUnsorted` the exported failure list has
row indices `[1, 0]` — the ratio failure of row 1 precedes the integer
failure of row 0, because the list is accumulated check-by-check — so
it is not sorted by row index first. -/
theorem failure_list_not_sorted_cex :
    (failuresOf (validateData tblUnsorted)).map (fun f => f.index) = [1, 0] ∧
    ¬ ((failuresOf (validateData tblUnsorted)).map (fun f => f.index)).Pairwise (· ≤ ·) := by
  constructor
  · decide
  · intro h
    rw [(by decide :
        (failuresOf (validateData tblUnsorted)).map (fun f => f.index) = [1, 0])] at h
    have := (List.pairwise_cons.mp h).1 0 (by simp)
    omega

/-- C7 amended.  When no required column is missing, the failure list is
deterministic (a pure function of the input) and is produced in check
order — date failures, then ratio failures, then consistency failures,
then integer failures (the integer block grouped by declared column) —
each block ordered by row index; and when `problems == 0` the returned
coerced table has the same row count as the input. -/
theorem failure_list_structure (t : Table)
    (hcols : ∀ c ∈ REQUIRED_COLUMNS, c ∈ t.cols) :
    failuresOf (validateData t) =
      dateFailures (coerced t) ++ ratioFailures (coerced t) ++
        consistencyFailures (coerced t) ++ integerFailures (coerced t) ∧
    ((dateFailures (coerced t)).Pairwise fun a b => a.index ≤ b.index) ∧
    ((ratioColFailures (coerced t) "ad_click_rate").Pairwise fun a b => a.index ≤ b.index) ∧
    ((consistencyFailures (coerced t)).Pairwise fun a b => a.index ≤ b.index) ∧
    ((intColFailures (coerced t) "avg_tab_cnt").Pairwise fun a b => a.index ≤ b.index) ∧
    ((intColFailures (coerced t) "search_freq").Pairwise fun a b => a.index ≤ b.index) ∧
    ((validateData t).isOk = true →
      (okT (validateData t)).rows.length = t.rows.length) := by
  have hmiss : missingOf t = [] :=
    List.filter_eq_nil_iff.mpr fun c hc => by simpa using hcols c hc
  refine ⟨?_, dateFailures_sorted _, ratioColFailures_sorted _ _,
    consistencyFailures_sorted _, intColFailures_sorted _ _, intColFailures_sorted _ _, ?_⟩
  · show failuresOf (validateData t) = allFailures (coerced t)
    simp only [validateData]
    rw [if_neg (by simp [hmiss])]
    by_cases hfs : allFailures (coerced t) ≠ []
    · rw [if_pos hfs]
      rfl
    · rw [if_neg hfs]
      push_neg at hfs
      rw [hfs]
      rfl
  · intro hok
    cases hv : validateData t with
    | error e => rw [hv] at hok; simp [Except.isOk, Except.toBool] at hok
    | ok tv =>
      obtain ⟨-, -, htv⟩ := validateData_ok_elim t tv hv
      show tv.rows.length = t.rows.length
      rw [htv, coerced_rows_length]

/-- C7 witness: `tblUnsorted` has all required columns; instantiating
the amended theorem there. -/
theorem failure_list_structure_witness :
    (intColFailures (coerced tblUnsorted) "avg_tab_cnt").Pairwise
      (fun a b => a.index ≤ b.index) :=
  (failure_list_structure tblUnsorted (by decide)).2.2.2.2.1

/-! ## Cell-level lemmas about `preprocessData` -/

theorem rowCell_mapCol_ne {c c' : String} (hne : c ≠ c') (f : Cell → Cell)
    (t : Table) (i : ℕ) : rowCell (mapCol c' f t) i c = rowCell t i c := by
  unfold rowCell mapCol
  rw [List.getD_eq_getElem?_getD, List.getD_eq_getElem?_getD, List.getElem?_map]
  cases hg : t.rows[i]? with
  | none => rfl
  | some r => simp [hne]

theorem rowCell_mapCol_self (c : String) (f : Cell → Cell) (t : Table) (i : ℕ) :
    rowCell (mapCol c f t) i c =
      match t.rows[i]? with
      | some r => f (r c)
      | none => Cell.na := by
  unfold rowCell mapCol
  rw [List.getD_eq_getElem?_getD, List.getElem?_map]
  cases t.rows[i]? with
  | none => rfl
  | some r => simp

theorem fillNumCol_cols (t : Table) (c : String) : (fillNumCol t c).cols = t.cols := by
  unfold fillNumCol
  split
  · dsimp only
    split <;> rfl
  · rfl

theorem ratioFillCol_cols (t : Table) (c : String) : (ratioFillCol t c).cols = t.cols := by
  unfold ratioFillCol
  split <;> rfl

theorem capCol_cols (t : Table) (c : String) : (capCol t c).cols = t.cols := by
  unfold capCol
  split
  · dsimp only
    split
    · split <;> rfl
    · rfl
  · rfl

theorem fillNumCol_len (t : Table) (c : String) :
    (fillNumCol t c).rows.length = t.rows.length := by
  unfold fillNumCol
  split
  · dsimp only
    split <;> simp [mapCol]
  · rfl

theorem ratioFillCol_len (t : Table) (c : String) :
    (ratioFillCol t c).rows.length = t.rows.length := by
  unfold ratioFillCol
  split
  · simp [mapCol]
  · rfl

theorem capCol_len (t : Table) (c : String) :
    (capCol t c).rows.length = t.rows.length := by
  unfold capCol
  split
  · dsimp only
    split
    · split
      · simp [mapCol]
      · rfl
    · rfl
  · rfl

theorem rowCell_fillNumCol_ne {c c' : String} (hne : c ≠ c') (t : Table) (i : ℕ) :
    rowCell (fillNumCol t c') i c = rowCell t i c := by
  unfold fillNumCol
  split
  · dsimp only
    split <;> exact rowCell_mapCol_ne hne _ _ _
  · rfl

theorem rowCell_ratioFillCol_ne {c c' : String} (hne : c ≠ c') (t : Table) (i : ℕ) :
    rowCell (ratioFillCol t c') i c = rowCell t i c := by
  unfold ratioFillCol
  split
  · exact rowCell_mapCol_ne hne _ _ _
  · rfl

theorem rowCell_capCol_ne {c c' : String} (hne : c ≠ c') (t : Table) (i : ℕ) :
    rowCell (capCol t c') i c = rowCell t i c := by
  unfold capCol
  split
  · dsimp only
    split
    · split
      · exact rowCell_mapCol_ne hne _ _ _
      · rfl
    · rfl
  · rfl

/-- IQR capping is skipped entirely on fewer than 8 rows. -/
theorem capCol_of_small (t : Table) (c : String) (h : t.rows.length < 8) :
    capCol t c = t := by
  unfold capCol
  have hlen : (colValues t c).length < 8 :=
    lt_of_le_of_lt (List.length_filterMap_le _ _) h
  by_cases hm : c ∈ t.cols
  · rw [if_pos hm, if_neg (by omega)]
  · rw [if_neg hm]

/-- After the ratio fill-and-clip of a present ratio column, every
numeric cell of that column is within `[0, 1]`. -/
theorem rowCell_ratioFillCol_bounds (t : Table) (hm : "ad_click_rate" ∈ t.cols)
    (i : ℕ) (q : ℚ)
    (h : rowCell (ratioFillCol t "ad_click_rate") i "ad_click_rate" = Cell.num q) :
    0 ≤ q ∧ q ≤ 1 := by
  unfold ratioFillCol at h
  rw [if_pos hm, rowCell_mapCol_self] at h
  cases hg : t.rows[i]? with
  | none => simp only [hg] at h; cases h
  | some r =>
    simp only [hg] at h
    cases hcell : r "ad_click_rate" with
    | na =>
      simp only [hcell] at h
      injection h with h'
      refine ⟨by rw [← h'], by rw [← h']; norm_num⟩
    | num x =>
      simp only [hcell] at h
      injection h with h'
      refine ⟨by rw [← h']; exact le_max_left 0 _, ?_⟩
      rw [← h']
      exact max_le (by norm_num) (min_le_left 1 x)
    | txt s => simp only [hcell] at h; cases h

/-- After the median fill of a present integer column, every numeric
cell of that column is integral (the column is rounded and cast to
`Int64`). -/
theorem rowCell_fillNumCol_int {c : String} (hc : c ∈ INTEGER_COLUMNS)
    (t : Table) (hm : c ∈ t.cols) (i : ℕ) (q : ℚ)
    (h : rowCell (fillNumCol t c) i c = Cell.num q) : q.den = 1 := by
  unfold fillNumCol at h
  rw [if_pos hm, if_pos hc, rowCell_mapCol_self] at h
  cases hg : t.rows[i]? with
  | none => simp only [hg] at h; cases h
  | some r =>
    simp only [hg] at h
    cases hcell : r c with
    | na =>
      simp only [hcell] at h
      cases hmed : median? (colValues t c) with
      | none => simp [fillCell, roundCell, hmed] at h
      | some m =>
        simp only [fillCell, roundCell, hmed] at h
        injection h with h'
        rw [← h']
        exact Rat.den_intCast _
    | num x =>
      simp only [hcell, fillCell, roundCell] at h
      injection h with h'
      rw [← h']
      exact Rat.den_intCast _
    | txt s => simp only [hcell, fillCell, roundCell] at h; cases h

/-- After the whole of `_preprocess_data`, every numeric cell of the
ratio column is within `[0, 1]` (IQR capping only touches the numeric
columns). -/
theorem rowCell_preprocess_ratio (t : Table) (hmem : "ad_click_rate" ∈ t.cols)
    (i : ℕ) (q : ℚ)
    (h : rowCell (preprocessData t) i "ad_click_rate" = Cell.num q) :
    0 ≤ q ∧ q ≤ 1 := by
  unfold preprocessData at h
  simp only [NUMERIC_COLUMNS, RATIO_COLUMNS, List.foldl_cons, List.foldl_nil] at h
  have ne1 : ("ad_click_rate" : String) ≠ "search_freq" := by decide
  have ne2 : ("ad_click_rate" : String) ≠ "avg_tab_cnt" := by decide
  have ne3 : ("ad_click_rate" : String) ≠ "session_length_mean" := by decide
  have ne4 : ("ad_click_rate" : String) ≠ "session_length_max" := by decide
  rw [rowCell_capCol_ne ne1, rowCell_capCol_ne ne2, rowCell_capCol_ne ne3,
      rowCell_capCol_ne ne4] at h
  refine rowCell_ratioFillCol_bounds _ ?_ i q h
  rw [fillNumCol_cols, fillNumCol_cols, fillNumCol_cols, fillNumCol_cols]
  exact hmem

/-- After the whole of `_preprocess_data` on a table with fewer than 8
rows (so IQR capping is skipped), every numeric cell of the integer
column `avg_tab_cnt` is integral. -/
theorem rowCell_preprocess_avg (t : Table) (hmem : "avg_tab_cnt" ∈ t.cols)
    (hsmall : t.rows.length < 8) (i : ℕ) (q : ℚ)
    (h : rowCell (preprocessData t) i "avg_tab_cnt" = Cell.num q) : q.den = 1 := by
  unfold preprocessData at h
  simp only [NUMERIC_COLUMNS, RATIO_COLUMNS, List.foldl_cons, List.foldl_nil] at h
  have ne1 : ("avg_tab_cnt" : String) ≠ "search_freq" := by decide
  have ne2 : ("avg_tab_cnt" : String) ≠ "session_length_mean" := by decide
  have ne3 : ("avg_tab_cnt" : String) ≠ "session_length_max" := by decide
  have ne4 : ("avg_tab_cnt" : String) ≠ "ad_click_rate" := by decide
  rw [rowCell_capCol_ne ne1] at h
  rw [capCol_of_small] at h
  · rw [rowCell_capCol_ne ne2, rowCell_capCol_ne ne3, rowCell_ratioFillCol_ne ne4,
        rowCell_fillNumCol_ne ne1] at h
    refine rowCell_fillNumCol_int (by decide) _ ?_ i q h
    rw [fillNumCol_cols, fillNumCol_cols]
    exact hmem
  · simp only [capCol_len, ratioFillCol_len, fillNumCol_len]
    exact hsmall

/-- After the whole of `_preprocess_data` on a table with fewer than 8
rows, every numeric cell of the integer column `search_freq` is
integral. -/
theorem rowCell_preprocess_search (t : Table) (hmem : "search_freq" ∈ t.cols)
    (hsmall : t.rows.length < 8) (i : ℕ) (q : ℚ)
    (h : rowCell (preprocessData t) i "search_freq" = Cell.num q) : q.den = 1 := by
  unfold preprocessData at h
  simp only [NUMERIC_COLUMNS, RATIO_COLUMNS, List.foldl_cons, List.foldl_nil] at h
  have ne1 : ("search_freq" : String) ≠ "avg_tab_cnt" := by decide
  have ne2 : ("search_freq" : String) ≠ "session_length_mean" := by decide
  have ne3 : ("search_freq" : String) ≠ "session_length_max" := by decide
  have ne4 : ("search_freq" : String) ≠ "ad_click_rate" := by decide
  rw [capCol_of_small] at h
  · rw [rowCell_capCol_ne ne1, rowCell_capCol_ne ne2, rowCell_capCol_ne ne3,
        rowCell_ratioFillCol_ne ne4] at h
    refine rowCell_fillNumCol_int (by decide) _ ?_ i q h
    rw [fillNumCol_cols, fillNumCol_cols, fillNumCol_cols]
    exact hmem
  · simp only [capCol_len, ratioFillCol_len, fillNumCol_len]
    exact hsmall

/-! ## Claim C5 -/

/-- C5 counterexample.  The table `fit_transform` actually returns is
standardized, so its values are z-scores: on `tbl01` (with the fitted
`scale_` assignment `std01`, verified by `validScale`), the returned
`ad_click_rate` of row 0 is `-1`, outside `[0, 1]`.  Moreover, even
before scaling, IQR capping can break integer columns: on the 8-row
`tbl8`, the cleaned (pre-scaling) `avg_tab_cnt` of row 7 is the
non-integral `10.5`. -/
theorem fit_scaled_table_violates_bounds_cex :
    validScale std01 (fitCleaned tbl01) = true ∧
    rowCell (fitTransform std01 tbl01).1 0 "ad_click_rate" = Cell.num (-1) ∧
    ¬ (0 ≤ (-1 : ℚ)) ∧
    rowCell (fitCleaned tbl8) 7 "avg_tab_cnt" = Cell.num (21/2) ∧
    ((21 : ℚ)/2).den ≠ 1 := by
  exact ⟨by decide, by decide, by norm_num, by decide, by decide⟩

/-- C5 amended.  The `[0,1]`/integrality invariants hold of the cleaned
table `fit` builds *before* standardization (`fitCleaned`, the
`df_processed` intermediate of `fit_transform`): every non-missing
`ad_click_rate` value lies in `[0, 1]`, and on tables with fewer than 8
rows (where IQR capping is skipped) every non-missing value of the
integer columns `avg_tab_cnt` and `search_freq` is integral.  The table
`fit` returns is the standardized rewrite of this one and does not
satisfy these bounds in general. -/
theorem fit_cleaned_table_bounds (t : Table) (i : ℕ)
    (hok : (validateData t).isOk = true) :
    (∀ q, rowCell (fitCleaned t) i "ad_click_rate" = Cell.num q → 0 ≤ q ∧ q ≤ 1) ∧
    (t.rows.length < 8 →
      (∀ q, rowCell (fitCleaned t) i "avg_tab_cnt" = Cell.num q → q.den = 1) ∧
      (∀ q, rowCell (fitCleaned t) i "search_freq" = Cell.num q → q.den = 1)) := by
  cases hv : validateData t with
  | error e => rw [hv] at hok; simp [Except.isOk, Except.toBool] at hok
  | ok tv =>
    obtain ⟨hmiss, -, htv⟩ := validateData_ok_elim t tv hv
    have hfc : fitCleaned t = preprocessData tv := by unfold fitCleaned; rw [hv]
    have hcols : tv.cols = t.cols := by rw [htv, coerced_cols]
    have hlen : tv.rows.length = t.rows.length := by rw [htv, coerced_rows_length]
    have hmem := required_mem_of_missing_nil t hmiss
    refine ⟨?_, fun hsmall => ⟨?_, ?_⟩⟩
    · intro q h
      rw [hfc] at h
      refine rowCell_preprocess_ratio tv ?_ i q h
      rw [hcols]
      exact hmem _ (by simp [REQUIRED_COLUMNS])
    · intro q h
      rw [hfc] at h
      refine rowCell_preprocess_avg tv ?_ (by omega) i q h
      rw [hcols]
      exact hmem _ (by simp [REQUIRED_COLUMNS])
    · intro q h
      rw [hfc] at h
      refine rowCell_preprocess_search tv ?_ (by omega) i q h
      rw [hcols]
      exact hmem _ (by simp [REQUIRED_COLUMNS])

/-- C5 witness: the amended theorem at `tblOK` (1 row; cleaned
`ad_click_rate` is 1/2, cleaned `search_freq` is 4). -/
theorem fit_cleaned_table_bounds_witness :
    (0 ≤ (1 : ℚ)/2 ∧ (1 : ℚ)/2 ≤ 1) ∧ ((4 : ℚ).den = 1) :=
  ⟨(fit_cleaned_table_bounds tblOK 0 (by decide)).1 (1/2) (by decide),
   ((fit_cleaned_table_bounds tblOK 0 (by decide)).2 (by decide)).2 4 (by decide)⟩

/-! ## Lemmas about `transformDP` and `appendRisk` -/

theorem preprocessData_len (t : Table) :
    (preprocessData t).rows.length = t.rows.length := by
  unfold preprocessData
  rw [foldl_rows_length (fun t c => capCol_len t c),
      foldl_rows_length (fun t c => ratioFillCol_len t c),
      foldl_rows_length (fun t c => fillNumCol_len t c)]

theorem scaleTable_len (sc : ScalerFit) (t : Table) :
    (scaleTable sc t).rows.length = t.rows.length := by
  unfold scaleTable
  rw [foldl_rows_length]
  intro tx c
  simp [mapCol]

theorem validateData_ok_len (t tv : Table) (h : validateData t = Except.ok tv) :
    tv.rows.length = t.rows.length := by
  obtain ⟨-, -, htv⟩ := validateData_ok_elim t tv h
  rw [htv, coerced_rows_length]

/-- Unfolding a successful `transform`: the state was fitted, the new
table validated, and the result is the cleaned table scaled with the
stored parameters. -/
theorem transformDP_ok_elim (fitted : Option ScalerFit) (t X : Table)
    (h : transformDP fitted t = Except.ok X) :
    ∃ sc tv, fitted = some sc ∧ validateData t = Except.ok tv ∧
      X = scaleTable sc (preprocessData tv) := by
  cases fitted with
  | none => unfold transformDP at h; cases h
  | some sc =>
    cases hv : validateData t with
    | error e => unfold transformDP at h; rw [hv] at h; cases h
    | ok tv =>
      unfold transformDP at h
      rw [hv] at h
      injection h with h'
      exact ⟨sc, tv, rfl, rfl, h'.symm⟩

theorem transformDP_ok_len (fitted : Option ScalerFit) (t X : Table)
    (h : transformDP fitted t = Except.ok X) : X.rows.length = t.rows.length := by
  obtain ⟨sc, tv, -, hv, hX⟩ := transformDP_ok_elim fitted t X h
  rw [hX, scaleTable_len, preprocessData_len, validateData_ok_len t tv hv]

/-- Mapping over a zip whose image depends only on the right component. -/
theorem map_zip_right {α β γ : Type} (f : α × β → γ) (g : β → γ)
    (hfg : ∀ a b, f (a, b) = g b) :
    ∀ (l1 : List α) (l2 : List β), l1.length = l2.length →
      (l1.zip l2).map f = l2.map g := by
  intro l1
  induction l1 with
  | nil =>
    intro l2 h
    cases l2 with
    | nil => rfl
    | cons b l2 => simp at h
  | cons a l1 ih =>
    intro l2 h
    cases l2 with
    | nil => simp at h
    | cons b l2 =>
      simp only [List.zip_cons_cons, List.map_cons, hfg]
      rw [ih l2 (by simpa using h)]

theorem appendRisk_proba (t : Table) (ps : List ℚ) (thr : ℚ)
    (hlen : t.rows.length = ps.length) :
    (appendRisk t ps thr).rows.map (fun r => r "risk_proba") =
      ps.map (fun p => Cell.num p) := by
  unfold appendRisk
  rw [List.map_map]
  exact map_zip_right _ _ (fun a b => by simp) t.rows ps hlen

theorem appendRisk_flag (t : Table) (ps : List ℚ) (thr : ℚ)
    (hlen : t.rows.length = ps.length) :
    (appendRisk t ps thr).rows.map (fun r => r "risk_flag") =
      ps.map (fun p => Cell.num (if thr ≤ p then 1 else 0)) := by
  unfold appendRisk
  rw [List.map_map]
  exact map_zip_right _ _ (fun a b => by simp) t.rows ps hlen

theorem appendRisk_len (t : Table) (ps : List ℚ) (thr : ℚ)
    (hlen : t.rows.length = ps.length) :
    (appendRisk t ps thr).rows.length = t.rows.length := by
  unfold appendRisk
  simp [hlen]

/-! ## Claim C9 -/

/-- C9 counterexample.  A non-empty input table does not always get the
risk columns appended: on the one-row `tblBadRatio` (with fitted
artifacts `art1`), the processor's `transform` re-validation fails, the
error propagates out of `predict_dataframe`, and no output table is
produced. -/
theorem predict_nonempty_can_fail_cex :
    tblBadRatio.rows.length = 1 ∧
    (predictDataframe art1 tblBadRatio).isOk = false := by
  exact ⟨by decide, by decide⟩

/-- C9 amended.  `predict_dataframe` on a zero-row table fails with
`EmptyInput` and produces no output; on a non-empty table *on which the
fitted processor's transform succeeds*, it returns the input table with
two columns appended — `risk_proba` holding the classifier probability
of each transformed row, and `risk_flag` holding `1` exactly when the
probability is `≥` the threshold (`loadThreshold`: the stored artifact,
`0.5` when absent) and `0` otherwise — with the row count preserved. -/
theorem predict_append_and_empty (art : Artifacts) (t : Table) :
    (t.rows.length = 0 → predictDataframe art t = Except.error ProcError.emptyInput) ∧
    (∀ X, transformDP art.scaler t = Except.ok X → t.rows.length ≠ 0 →
      predictDataframe art t =
        Except.ok (appendRisk t (X.rows.map art.probaOf)
          (loadThreshold art.threshold (1/2))) ∧
      (appendRisk t (X.rows.map art.probaOf)
          (loadThreshold art.threshold (1/2))).rows.map (fun r => r "risk_proba") =
        (X.rows.map art.probaOf).map (fun p => Cell.num p) ∧
      (appendRisk t (X.rows.map art.probaOf)
          (loadThreshold art.threshold (1/2))).rows.map (fun r => r "risk_flag") =
        (X.rows.map art.probaOf).map
          (fun p => Cell.num (if loadThreshold art.threshold (1/2) ≤ p then 1 else 0)) ∧
      (appendRisk t (X.rows.map art.probaOf)
          (loadThreshold art.threshold (1/2))).rows.length = t.rows.length) := by
  constructor
  · intro h0
    unfold predictDataframe
    rw [if_pos (Or.inl h0)]
  · intro X hX hrow
    have hlen : t.rows.length = (X.rows.map art.probaOf).length := by
      rw [List.length_map, transformDP_ok_len art.scaler t X hX]
    have hcols : t.cols.length ≠ 0 := by
      obtain ⟨sc, tv, -, hv, -⟩ := transformDP_ok_elim art.scaler t X hX
      obtain ⟨hmiss, -, -⟩ := validateData_ok_elim t tv hv
      have : "period_start" ∈ t.cols :=
        required_mem_of_missing_nil t hmiss _ (by simp [REQUIRED_COLUMNS])
      intro hz
      rw [List.length_eq_zero] at hz
      rw [hz] at this
      cases this
    refine ⟨?_, appendRisk_proba _ _ _ hlen, appendRisk_flag _ _ _ hlen,
      appendRisk_len _ _ _ hlen⟩
    unfold predictDataframe
    rw [if_neg (by push_neg; exact ⟨hrow, hcols⟩), hX]

/-- C9 witness: the empty-table branch at a zero-row table, and the
success branch at `tblOK` with artifacts `art1`. -/
theorem predict_append_and_empty_witness :
    predictDataframe art1 (⟨DataProcessor.REQUIRED_COLUMNS, []⟩ : Table) =
      Except.error ProcError.emptyInput ∧
    (predictDataframe art1 tblOK).isOk = true := by
  constructor
  · exact (predict_append_and_empty art1 _).1 (by decide)
  · have h := ((predict_append_and_empty art1 tblOK).2
      (okT (transformDP art1.scaler tblOK)) (by rfl) (by decide)).1
    rw [h]
    rfl

end CreativePlatform
